import Mathlib

/-!
Shallow embedding of the temporal state engine of UD-Viz
(`src/UD-Viz-Core/src/Modules/Temporal/ViewModel/TemporalProvider.js`).

Times are modelled as rationals, tile identifiers as naturals and feature
identifiers as strings.  JavaScript objects and `Map`s become association
lists, fallible lookups become `Option`, and the imperative
`featuresDisplayStates.push` loop of `culling` becomes a fold that appends,
for each feature index, the list of labels pushed during that iteration
(`featureState`).  The `console.warn` diagnostic of `computeFeaturesStates`
is reflected by a boolean `warned` field in its result.
-/

/-- A temporal transaction: either primary (carrying a `type` string) or an
aggregate wrapping an ordered list of nested transactions.  Both carry the
active window bounds `startDate` and `endDate`. -/
inductive Transaction where
  | primary (startDate endDate : Rat) (ty : String)
  | aggregate (startDate endDate : Rat) (transactions : List Transaction)

/-- Accessor for the `startDate` field of a transaction. -/
def Transaction.startDate : Transaction → Rat
  | .primary s _ _ => s
  | .aggregate s _ _ => s

/-- Accessor for the `endDate` field of a transaction. -/
def Transaction.endDate : Transaction → Rat
  | .primary _ e _ => e
  | .aggregate _ e _ => e

/-- The `type` of a primary transaction, `none` on aggregates. -/
def Transaction.primaryType : Transaction → Option String
  | .primary _ _ ty => some ty
  | .aggregate _ _ _ => none

/-- The record stored in `featuresTransacs` for one feature: its optional
outgoing (`asSource`) and incoming (`asDestination`) transactions. -/
structure FeatureTransacs where
  asSource : Option Transaction
  asDestination : Option Transaction

/-- A per-tile temporal batch table: the parallel arrays `featureIds`,
`startDates`, `endDates` plus the transaction map `featuresTransacs`
(modelled as an association list keyed by feature identifier). -/
structure BatchTable where
  featureIds : List String
  startDates : List Rat
  endDates : List Rat
  featuresTransacs : List (String × FeatureTransacs)

mutual

/-- Embedding of `TemporalProvider.getTransactionStyleName(transaction,
styleName)`.  A primary transaction returns its `type` verbatim; an
aggregate first replaces an empty accumulator by `"aggregate"` and then,
for each nested transaction in order, appends a `"-"` separator followed by
the recursive resolution of that nested transaction, the recursive call
receiving the accumulator built so far (the source passes the current
`styleName` into the recursion before reassigning it). -/
def getTransactionStyleName : Transaction → String → String
  | .primary _ _ ty, _ => ty
  | .aggregate _ _ ts, styleName =>
      styleNameLoop ts (if styleName = "" then "aggregate" else styleName)

/-- The `for` loop inside the aggregate branch of `getTransactionStyleName`:
threads the accumulated style name through the nested transactions. -/
def styleNameLoop : List Transaction → String → String
  | [], styleName => styleName
  | tr :: rest, styleName =>
      styleNameLoop rest (styleName ++ "-" ++ getTransactionStyleName tr styleName)

end

/-- The first-half window test applied to `transacAsSource` in `culling`:
`currentTime > startDate && currentTime <= startDate + halfDuration` with
`halfDuration = (endDate - startDate) / 2`. -/
def transacWindowFiresAsSource (tr : Transaction) (currentTime : Rat) : Bool :=
  decide (currentTime > tr.startDate ∧
    currentTime ≤ tr.startDate + (tr.endDate - tr.startDate) / 2)

/-- The second-half window test applied to `transacAsDest` in `culling`:
`currentTime > startDate + halfDuration && currentTime <= endDate`. -/
def transacWindowFiresAsDest (tr : Transaction) (currentTime : Rat) : Bool :=
  decide (currentTime > tr.startDate + (tr.endDate - tr.startDate) / 2 ∧
    currentTime ≤ tr.endDate)

/-- One iteration of the `culling` loop: the list of labels pushed onto
`featuresDisplayStates` for the feature at index `i`.  Mirrors the source:
the existence check pushes `noTransaction`; otherwise, when a transaction
record is present, the source window and the destination window each push
their resolved style name when they fire (`hasTransac` becomes true exactly
when at least one pushed) and `hide` is pushed when neither fired; otherwise
the synthetic creation/demolition windows of half-width `halfVintage = 1.5`
apply. -/
def featureState (BT : BatchTable) (currentTime : Rat) (i : Nat) : List String :=
  if currentTime ≥ BT.startDates.getD i 0 ∧ currentTime ≤ BT.endDates.getD i 0 then
    ["noTransaction"]
  else
    match BT.featuresTransacs.lookup (BT.featureIds.getD i "") with
    | some featureTransacs =>
      let srcPushes : List String :=
        match featureTransacs.asSource with
        | some transacAsSource =>
            if transacWindowFiresAsSource transacAsSource currentTime then
              [getTransactionStyleName transacAsSource ""]
            else []
        | none => []
      let dstPushes : List String :=
        match featureTransacs.asDestination with
        | some transacAsDest =>
            if transacWindowFiresAsDest transacAsDest currentTime then
              [getTransactionStyleName transacAsDest ""]
            else []
        | none => []
      if srcPushes = [] ∧ dstPushes = [] then ["hide"] else srcPushes ++ dstPushes
    | none =>
      let halfVintage : Rat := 3 / 2
      if currentTime + halfVintage ≥ BT.startDates.getD i 0 ∧
          currentTime < BT.startDates.getD i 0 then
        ["creation"]
      else if currentTime - halfVintage < BT.endDates.getD i 0 ∧
          currentTime > BT.endDates.getD i 0 then
        ["demolition"]
      else
        ["hide"]

/-- Embedding of `TemporalProvider.culling(BT)`: iterates over the indices
of `BT.featureIds` and appends, for each index, the labels pushed during
that iteration. -/
def culling (BT : BatchTable) (currentTime : Rat) : List String :=
  (List.range BT.featureIds.length).foldl
    (fun acc i => acc ++ featureState BT currentTime i) []

/-- Whether, at index `i`, the existence check fails, a transaction record
is present, and both the source first-half window and the destination
second-half window contain `currentTime` — exactly the situation in which
the `culling` loop body pushes two labels for one feature. -/
def bothTransacWindowsFire (BT : BatchTable) (currentTime : Rat) (i : Nat) : Bool :=
  (!decide (currentTime ≥ BT.startDates.getD i 0 ∧
      currentTime ≤ BT.endDates.getD i 0)) &&
  (match BT.featuresTransacs.lookup (BT.featureIds.getD i "") with
   | some featureTransacs =>
     (match featureTransacs.asSource with
      | some tr => transacWindowFiresAsSource tr currentTime
      | none => false) &&
     (match featureTransacs.asDestination with
      | some tr => transacWindowFiresAsDest tr currentTime
      | none => false)
   | none => false)

/-- Concatenation of a list of style names, each preceded by a `"-"`
separator: the shape `-t1-t2-...-tn` that the aggregate branch appends
after its initial accumulator. -/
def dashConcat : List String → String
  | [] => ""
  | ty :: rest => "-" ++ ty ++ dashConcat rest

/-- The inner map of `datedTilesDisplayStates`: tile identifier to the
display states computed for that tile. -/
abbrev TileStates := List (Nat × List String)

/-- The `datedTilesDisplayStates` cache: date, then tile identifier, then
the ordered display states of the tile's features. -/
abbrev DisplayStateCache := List (Rat × TileStates)

/-- JavaScript `Map.prototype.set` on the inner tile map: replaces the
binding when the key is present, appends it otherwise. -/
def tileStatesSet (m : TileStates) (tileId : Nat) (v : List String) : TileStates :=
  match m with
  | [] => [(tileId, v)]
  | (k, w) :: rest =>
      if k = tileId then (tileId, v) :: rest else (k, w) :: tileStatesSet rest tileId v

/-- The cache-hit test of `computeFeaturesStates`:
`datedTilesDisplayStates.has(currentTime) && ...get(currentTime).has(tileId)`,
returning the stored states when both hold. -/
def cacheLookup (c : DisplayStateCache) (currentTime : Rat) (tileId : Nat) :
    Option (List String) :=
  match c.lookup currentTime with
  | some m => m.lookup tileId
  | none => none

/-- The cache-store step of `computeFeaturesStates`: create an empty inner
map for `currentTime` when absent, then `set(tileId, states)` in it. -/
def cacheInsert (c : DisplayStateCache) (currentTime : Rat) (tileId : Nat)
    (states : List String) : DisplayStateCache :=
  match c with
  | [] => [(currentTime, [(tileId, states)])]
  | (t, m) :: rest =>
      if t = currentTime then (currentTime, tileStatesSet m tileId states) :: rest
      else (t, m) :: cacheInsert rest currentTime tileId states

/-- Result of one call to `computeFeaturesStates`: the returned display
states, the cache after the call, and whether the missing-batch-table
diagnostic was emitted (`console.warn`). -/
structure ComputeResult where
  states : List String
  cache : DisplayStateCache
  warned : Bool
deriving DecidableEq

/-- Embedding of `TemporalProvider.computeFeaturesStates(tileId)`.  The
`temporalExtensionModel.temporalBatchTables` collaborator is the lookup
`model`; `currentTime` and the cache are the engine state read by the
method.  The root tile (identifier `0`) returns an empty result at once;
a cache hit returns the stored states; with a batch table present the
states are computed by `culling` and stored; otherwise a diagnostic is
emitted and an empty result returned. -/
def computeFeaturesStates (model : Nat → Option BatchTable) (currentTime : Rat)
    (cache : DisplayStateCache) (tileId : Nat) : ComputeResult :=
  if tileId = 0 then ⟨[], cache, false⟩
  else
    match cacheLookup cache currentTime tileId with
    | some states => ⟨states, cache, false⟩
    | none =>
      match model tileId with
      | some tileTemporalBT =>
          let states := culling tileTemporalBT currentTime
          ⟨states, cacheInsert cache currentTime tileId states, false⟩
      | none => ⟨[], cache, true⟩

/-- Embedding of `TemporalProvider.computeTileState(tileContent)`: the
per-feature styling requests it issues.  `isStyleRegistered` is the style
registry predicate of the tiles manager; each request is the
`(tileId, batchId, styleName)` triple passed to `setStyle`, with the
unregistered-style fallback `noTransaction`. -/
def computeTileState (isStyleRegistered : String → Bool)
    (model : Nat → Option BatchTable) (currentTime : Rat)
    (cache : DisplayStateCache) (tileId : Nat) :
    List (Nat × Nat × String) × ComputeResult :=
  let r := computeFeaturesStates model currentTime cache tileId
  let requests := (List.range r.states.length).foldl
    (fun acc i =>
      let featureStyleName := r.states.getD i ""
      if isStyleRegistered featureStyleName then
        acc ++ [(tileId, i, featureStyleName)]
      else
        acc ++ [(tileId, i, "noTransaction")]) []
  (requests, r)

/-- The five canonical labels registered by `initTransactionsStyles`. -/
def initialStyleRegistry : String → Bool := fun name =>
  name = "noTransaction" || name = "creation" || name = "demolition" ||
    name = "modification" || name = "hide"

/-- Example: a primary creation transaction on `[0, 10]`, whose first-half
window as source is `(0, 5]`. -/
def exSourceTransac : Transaction := .primary 0 10 "creation"

/-- Example: a primary demolition transaction on `[-10, 4]`, whose
second-half window as destination is `(-3, 4]`. -/
def exDestTransac : Transaction := .primary (-10) 4 "demolition"

/-- Example batch table with one feature of lifespan `[100, 200]` linked to
`exSourceTransac` as source and `exDestTransac` as destination: at
`currentTime = 3` the existence check fails and both transaction windows
fire. -/
def exDoubleBT : BatchTable :=
  { featureIds := ["f"]
    startDates := [100]
    endDates := [200]
    featuresTransacs := [("f", ⟨some exSourceTransac, some exDestTransac⟩)] }

/-- Example batch table with one feature of lifespan `[0, 5]` and no
transaction record. -/
def exLifespanBT : BatchTable :=
  { featureIds := ["g"]
    startDates := [0]
    endDates := [5]
    featuresTransacs := [] }

/-- Example batch table with two features of lifespan `[0, 10]` and no
transactions. -/
def exPlainBT : BatchTable :=
  { featureIds := ["A", "B"]
    startDates := [0, 0]
    endDates := [10, 10]
    featuresTransacs := [] }

/-- Example temporal extension model: only tile `1` has a batch table. -/
def exModel : Nat → Option BatchTable := fun tileId =>
  if tileId = 1 then some exPlainBT else none

lemma foldl_append_eq_flatten {α β : Type} (f : β → List α) :
    ∀ (l : List β) (acc : List α),
      l.foldl (fun a i => a ++ f i) acc = acc ++ (l.map f).flatten := by
  intro l
  induction l with
  | nil => intro acc; simp
  | cons b l ih => intro acc; simp [ih, List.append_assoc]

lemma flatten_singletons {α β : Type} (d : α) (f : β → List α) :
    ∀ l : List β, (∀ i ∈ l, (f i).length = 1) →
      (l.map f).flatten = l.map fun i => (f i).headD d := by
  intro l
  induction l with
  | nil => intro _; simp
  | cons b l ih =>
      intro h
      obtain ⟨x, hx⟩ := List.length_eq_one.mp (h b (List.mem_cons_self b l))
      have hrest := ih fun i hi => h i (List.mem_cons_of_mem b hi)
      simp [hx, hrest]

lemma flatten_split_of_mem {α β : Type} (f : β → List α) :
    ∀ (l : List β) (i : β), i ∈ l →
      ∃ pre post, (l.map f).flatten = pre ++ f i ++ post := by
  intro l
  induction l with
  | nil => intro i hi; cases hi
  | cons b l ih =>
      intro i hi
      rcases List.mem_cons.mp hi with hb | hl
      · exact ⟨[], (l.map f).flatten, by simp [hb]⟩
      · obtain ⟨pre, post, hsplit⟩ := ih i hl
        exact ⟨f b ++ pre, post, by simp [hsplit, List.append_assoc]⟩

lemma culling_eq_flatten (BT : BatchTable) (t : Rat) :
    culling BT t = ((List.range BT.featureIds.length).map (featureState BT t)).flatten := by
  simpa [culling] using
    foldl_append_eq_flatten (featureState BT t) (List.range BT.featureIds.length) []

lemma featureState_length_one (BT : BatchTable) (t : Rat) (i : Nat)
    (h : bothTransacWindowsFire BT t i = false) :
    (featureState BT t i).length = 1 := by
  unfold bothTransacWindowsFire at h
  unfold featureState
  by_cases hex : t ≥ BT.startDates.getD i 0 ∧ t ≤ BT.endDates.getD i 0
  · rw [if_pos hex]; rfl
  · rw [if_neg hex]
    rw [decide_eq_false hex] at h
    simp only [Bool.not_false, Bool.true_and] at h
    cases hlk : BT.featuresTransacs.lookup (BT.featureIds.getD i "") with
    | none =>
        simp only []
        split
        · rfl
        · split <;> rfl
    | some ftr =>
        rw [hlk] at h
        simp only [] at h ⊢
        cases hsrc : ftr.asSource with
        | none =>
            simp only [hsrc]
            cases hdst : ftr.asDestination with
            | none => simp
            | some trd =>
                simp only [hdst]
                split <;> simp
        | some trs =>
            simp only [hsrc]
            cases hdst : ftr.asDestination with
            | none =>
                simp only [hdst]
                split <;> simp
            | some trd =>
                rw [hsrc, hdst] at h
                simp only [hdst]
                cases hfs : transacWindowFiresAsSource trs t with
                | false =>
                    simp only [hfs, if_false, Bool.false_eq_true]
                    split <;> simp
                | true =>
                    have h2 : (transacWindowFiresAsSource trs t &&
                        transacWindowFiresAsDest trd t) = false := h
                    rw [hfs] at h2
                    have hfd : transacWindowFiresAsDest trd t = false := by
                      simpa using h2
                    simp [hfs, hfd]

lemma styleNameLoop_structure :
    ∀ (trs : List Transaction) (acc : String),
      ∃ rs : List String, rs.length = trs.length ∧
        styleNameLoop trs acc = acc ++ dashConcat rs ∧
        ∀ i (h : i < trs.length), ∃ a,
          rs.getD i "" = getTransactionStyleName (trs.get ⟨i, h⟩) a := by
  intro trs
  induction trs with
  | nil =>
      intro acc
      exact ⟨[], rfl, by simp [styleNameLoop, dashConcat], fun i h => absurd h (by simp)⟩
  | cons tr rest ih =>
      intro acc
      obtain ⟨rs, hlen, heq, hidx⟩ :=
        ih (acc ++ "-" ++ getTransactionStyleName tr acc)
      refine ⟨getTransactionStyleName tr acc :: rs, by simp [hlen], ?_, ?_⟩
      · rw [styleNameLoop, heq, dashConcat, String.append_assoc, String.append_assoc,
          String.append_assoc]
      · intro i h
        cases i with
        | zero => exact ⟨acc, rfl⟩
        | succ j =>
            obtain ⟨a, ha⟩ := hidx j (by simpa using h)
            exact ⟨a, ha⟩

lemma styleNameLoop_primary :
    ∀ (trs : List Transaction) (ts : List String) (acc : String),
      trs.map Transaction.primaryType = ts.map some →
      styleNameLoop trs acc = acc ++ dashConcat ts := by
  intro trs
  induction trs with
  | nil =>
      intro ts acc h
      cases ts with
      | nil => simp [styleNameLoop, dashConcat]
      | cons ty ts => simp at h
  | cons tr rest ih =>
      intro ts acc h
      cases ts with
      | nil => simp at h
      | cons ty ts =>
          simp only [List.map_cons, List.cons.injEq] at h
          obtain ⟨hty, hrest⟩ := h
          cases tr with
          | aggregate sd ed sub => simp [Transaction.primaryType] at hty
          | primary sd ed ty' =>
              simp only [Transaction.primaryType, Option.some.injEq] at hty
              subst hty
              rw [styleNameLoop, getTransactionStyleName, ih ts _ hrest,
                dashConcat, String.append_assoc, String.append_assoc,
                String.append_assoc]

lemma tileStatesSet_lookup (m : TileStates) (tileId : Nat) (v : List String) :
    (tileStatesSet m tileId v).lookup tileId = some v := by
  induction m with
  | nil => simp [tileStatesSet, List.lookup]
  | cons kv rest ih =>
      obtain ⟨k, w⟩ := kv
      by_cases hk : k = tileId
      · simp [tileStatesSet, hk, List.lookup]
      · have hbeq : (tileId == k) = false := by
          simp [Ne.symm hk]
        simp [tileStatesSet, hk, List.lookup, hbeq, ih]

lemma cacheLookup_cacheInsert (c : DisplayStateCache) (currentTime : Rat)
    (tileId : Nat) (states : List String) :
    cacheLookup (cacheInsert c currentTime tileId states) currentTime tileId =
      some states := by
  induction c with
  | nil => simp [cacheInsert, cacheLookup, List.lookup, tileStatesSet]
  | cons kv rest ih =>
      obtain ⟨d, m⟩ := kv
      by_cases hd : d = currentTime
      · simp [cacheInsert, hd, cacheLookup, List.lookup, tileStatesSet_lookup]
      · have hbeq : (currentTime == d) = false := by
          simp [Ne.symm hd]
        simp only [cacheInsert, hd, if_false, cacheLookup, List.lookup, hbeq]
        simpa [cacheLookup] using ih

/-- C3: any feature whose lifespan contains the current time is labelled
`noTransaction` by the culling loop, whatever transaction records it has,
and (for an in-range index) that label occurs in the output of `culling`
after the labels of the earlier features. -/
theorem featureState_existing_noTransaction (BT : BatchTable) (t : Rat) (i : Nat)
    (h1 : BT.startDates.getD i 0 ≤ t) (h2 : t ≤ BT.endDates.getD i 0) :
    featureState BT t i = ["noTransaction"] ∧
    (i < BT.featureIds.length →
      ∃ pre post, culling BT t = pre ++ "noTransaction" :: post) := by
  have hfs : featureState BT t i = ["noTransaction"] := by
    unfold featureState
    rw [if_pos ⟨h1, h2⟩]
  refine ⟨hfs, fun hi => ?_⟩
  obtain ⟨pre, post, hsplit⟩ := flatten_split_of_mem (featureState BT t)
    (List.range BT.featureIds.length) i (List.mem_range.mpr hi)
  refine ⟨pre, post, ?_⟩
  rw [culling_eq_flatten, hsplit, hfs]
  simp

/-- Witness for the C3 theorem at the two-feature example table queried
inside the lifespan. -/
theorem featureState_existing_noTransaction_witness :
    featureState exPlainBT 5 0 = ["noTransaction"] ∧
    (0 < exPlainBT.featureIds.length →
      ∃ pre post, culling exPlainBT 5 = pre ++ "noTransaction" :: post) :=
  featureState_existing_noTransaction exPlainBT 5 0
    (by with_unfolding_all decide) (by with_unfolding_all decide)

/-- C2 (amended): outside the lifespan, with a transaction record carrying
both an `asSource` and an `asDestination` transaction, the culling loop
body pushes the resolved source style name when only the source first-half
window fires, the resolved destination style name when only the destination
second-half window fires, BOTH labels (source first, then destination) when
the two windows fire together, and `hide` when neither fires. -/
theorem featureState_transaction_cases (BT : BatchTable) (t : Rat) (i : Nat)
    (hex : ¬(t ≥ BT.startDates.getD i 0 ∧ t ≤ BT.endDates.getD i 0))
    (ftr : FeatureTransacs)
    (hf : BT.featuresTransacs.lookup (BT.featureIds.getD i "") = some ftr)
    (s d : Transaction) (hs : ftr.asSource = some s) (hd : ftr.asDestination = some d) :
    (transacWindowFiresAsSource s t = true → transacWindowFiresAsDest d t = false →
      featureState BT t i = [getTransactionStyleName s ""]) ∧
    (transacWindowFiresAsSource s t = false → transacWindowFiresAsDest d t = true →
      featureState BT t i = [getTransactionStyleName d ""]) ∧
    (transacWindowFiresAsSource s t = true → transacWindowFiresAsDest d t = true →
      featureState BT t i =
        [getTransactionStyleName s "", getTransactionStyleName d ""]) ∧
    (transacWindowFiresAsSource s t = false → transacWindowFiresAsDest d t = false →
      featureState BT t i = ["hide"]) := by
  unfold featureState
  rw [if_neg hex]
  refine ⟨?_, ?_, ?_, ?_⟩ <;> intro h1 h2 <;>
    simp only [List.getD_eq_getElem?_getD] at hf ⊢ <;>
    simp [hf, hs, hd, h1, h2]

/-- Witness for the C2 theorem: at the double-window example both windows
fire and the loop body pushes the source label followed by the destination
label. -/
theorem featureState_transaction_cases_witness :
    featureState exDoubleBT 3 0 =
      [getTransactionStyleName exSourceTransac "",
        getTransactionStyleName exDestTransac ""] :=
  (featureState_transaction_cases exDoubleBT 3 0 (by with_unfolding_all decide)
      ⟨some exSourceTransac, some exDestTransac⟩ rfl
      exSourceTransac exDestTransac rfl rfl).2.2.1
    (by with_unfolding_all decide) (by with_unfolding_all decide)

/-- Counterexample to C2 as stated: at `currentTime = 3` both the source
first-half window and the destination second-half window of the
double-window example fire, yet the labels pushed for the feature are not
the single resolved destination name (destination does not win); the loop
pushes both names. -/
theorem featureState_last_write_wins_cex :
    transacWindowFiresAsSource exSourceTransac 3 = true ∧
    transacWindowFiresAsDest exDestTransac 3 = true ∧
    ¬((3 : Rat) ≥ exDoubleBT.startDates.getD 0 0 ∧
        (3 : Rat) ≤ exDoubleBT.endDates.getD 0 0) ∧
    featureState exDoubleBT 3 0 ≠ [getTransactionStyleName exDestTransac ""] ∧
    featureState exDoubleBT 3 0 = ["creation", "demolition"] := by
  with_unfolding_all decide

/-- C1 (amended): whenever no feature has both its source first-half window
and its destination second-half window containing the current time,
`culling` returns exactly one label per entry of `featureIds`, in the same
order (the label at index `i` is the one pushed for feature `i`) and with
the same length. -/
theorem culling_one_label_per_feature (BT : BatchTable) (t : Rat)
    (h : ∀ i, i < BT.featureIds.length → bothTransacWindowsFire BT t i = false) :
    culling BT t =
      (List.range BT.featureIds.length).map
        (fun i => (featureState BT t i).headD "hide") ∧
    (culling BT t).length = BT.featureIds.length := by
  have h1 : ∀ i ∈ List.range BT.featureIds.length, (featureState BT t i).length = 1 :=
    fun i hi => featureState_length_one BT t i (h i (List.mem_range.mp hi))
  have hmain : culling BT t = (List.range BT.featureIds.length).map
      (fun i => (featureState BT t i).headD "hide") := by
    rw [culling_eq_flatten, flatten_singletons "hide" (featureState BT t) _ h1]
  exact ⟨hmain, by rw [hmain, List.length_map, List.length_range]⟩

/-- Witness for the C1 theorem at the two-feature example table. -/
theorem culling_one_label_per_feature_witness :
    culling exPlainBT 5 =
      (List.range exPlainBT.featureIds.length).map
        (fun i => (featureState exPlainBT 5 i).headD "hide") ∧
    (culling exPlainBT 5).length = exPlainBT.featureIds.length :=
  culling_one_label_per_feature exPlainBT 5 (by with_unfolding_all decide)

/-- Counterexample to C1 as stated: the double-window example table has one
entry in `featureIds` but `culling` returns two labels for it, so the
output is not one label per entry of the same length. -/
theorem culling_one_label_per_feature_cex :
    exDoubleBT.featureIds.length = 1 ∧
    culling exDoubleBT 3 = ["creation", "demolition"] ∧
    (culling exDoubleBT 3).length ≠ exDoubleBT.featureIds.length := by
  with_unfolding_all decide

/-- C4 (amended): for a feature with no transaction record, with
`halfVintage = 1.5`: strictly before the lifespan start but at or after
`start - 1.5` the label is `creation`; otherwise strictly after the
lifespan end but strictly before `end + 1.5` the label is `demolition`;
otherwise, outside the lifespan, the label is `hide`.  (The demolition
look-back bound is strict, so `currentTime = end + 1.5` yields `hide`.) -/
theorem featureState_synthetic_windows (BT : BatchTable) (t : Rat) (i : Nat)
    (hno : BT.featuresTransacs.lookup (BT.featureIds.getD i "") = none) :
    (BT.startDates.getD i 0 - 3 / 2 ≤ t ∧ t < BT.startDates.getD i 0 →
      featureState BT t i = ["creation"]) ∧
    (¬(BT.startDates.getD i 0 - 3 / 2 ≤ t ∧ t < BT.startDates.getD i 0) →
      BT.endDates.getD i 0 < t → t < BT.endDates.getD i 0 + 3 / 2 →
      featureState BT t i = ["demolition"]) ∧
    (¬(BT.startDates.getD i 0 - 3 / 2 ≤ t ∧ t < BT.startDates.getD i 0) →
      ¬(BT.endDates.getD i 0 < t ∧ t < BT.endDates.getD i 0 + 3 / 2) →
      (t < BT.startDates.getD i 0 ∨ BT.endDates.getD i 0 < t) →
      featureState BT t i = ["hide"]) := by
  refine ⟨?_, ?_, ?_⟩
  · intro hc
    have hex : ¬(t ≥ BT.startDates.getD i 0 ∧ t ≤ BT.endDates.getD i 0) :=
      fun hx => absurd hc.2 (not_lt.mpr hx.1)
    unfold featureState
    rw [if_neg hex]
    simp only [hno]
    rw [if_pos ⟨by linarith [hc.1], hc.2⟩]
  · intro hnc hlt hub
    have hex : ¬(t ≥ BT.startDates.getD i 0 ∧ t ≤ BT.endDates.getD i 0) :=
      fun hx => absurd hlt (not_lt.mpr hx.2)
    unfold featureState
    rw [if_neg hex]
    simp only [hno]
    rw [if_neg, if_pos ⟨by linarith, hlt⟩]
    intro hcr
    exact hnc ⟨by linarith [hcr.1], hcr.2⟩
  · intro hnc hnd hout
    have hex : ¬(t ≥ BT.startDates.getD i 0 ∧ t ≤ BT.endDates.getD i 0) := by
      rcases hout with hlt | hgt
      · exact fun hx => absurd hlt (not_lt.mpr hx.1)
      · exact fun hx => absurd hgt (not_lt.mpr hx.2)
    unfold featureState
    rw [if_neg hex]
    simp only [hno]
    rw [if_neg, if_neg]
    · intro hdm
      exact hnd ⟨hdm.2, by linarith [hdm.1]⟩
    · intro hcr
      exact hnc ⟨by linarith [hcr.1], hcr.2⟩

/-- Witness for the C4 theorem: the feature of lifespan `[0, 5]` with no
transaction gives `creation` at `-1`, `demolition` at `6` and `hide` at
`-2` and `7`. -/
theorem featureState_synthetic_windows_witness :
    featureState exLifespanBT (-1) 0 = ["creation"] ∧
    featureState exLifespanBT 6 0 = ["demolition"] ∧
    featureState exLifespanBT (-2) 0 = ["hide"] ∧
    featureState exLifespanBT 7 0 = ["hide"] :=
  ⟨(featureState_synthetic_windows exLifespanBT (-1) 0 rfl).1
      (by with_unfolding_all decide),
    (featureState_synthetic_windows exLifespanBT 6 0 rfl).2.1
      (by with_unfolding_all decide) (by with_unfolding_all decide)
      (by with_unfolding_all decide),
    (featureState_synthetic_windows exLifespanBT (-2) 0 rfl).2.2
      (by with_unfolding_all decide) (by with_unfolding_all decide)
      (by with_unfolding_all decide),
    (featureState_synthetic_windows exLifespanBT 7 0 rfl).2.2
      (by with_unfolding_all decide) (by with_unfolding_all decide)
      (by with_unfolding_all decide)⟩

/-- Counterexample to C4 as stated: at the boundary time `end + 1.5 = 6.5`
of the lifespan-`[0, 5]` feature the claim demands `demolition`
(`end < t <= end + 1.5`), but the code's strict look-back bound gives
`hide`. -/
theorem featureState_synthetic_windows_cex :
    exLifespanBT.endDates.getD 0 0 < (13 / 2 : Rat) ∧
    (13 / 2 : Rat) ≤ exLifespanBT.endDates.getD 0 0 + 3 / 2 ∧
    (exLifespanBT.featuresTransacs.lookup
      (exLifespanBT.featureIds.getD 0 "")).isNone = true ∧
    featureState exLifespanBT (13 / 2) 0 = ["hide"] ∧
    culling exLifespanBT (13 / 2) = ["hide"] := by
  with_unfolding_all decide

/-- C5: style-name resolution returns a primary transaction's type
verbatim (whatever the accumulator), and on an aggregate started with the
empty accumulator it returns the literal `aggregate` followed by, for each
nested transaction in nesting order, a `-` separator and that nested
transaction's resolution (at the accumulator passed to the recursive call);
on the example aggregate wrapping primaries of types `creation` and
`demolition` it returns `aggregate-creation-demolition`. -/
theorem getTransactionStyleName_resolution :
    (∀ (sd ed : Rat) (ty styleName : String),
      getTransactionStyleName (.primary sd ed ty) styleName = ty) ∧
    (∀ (sd ed : Rat) (trs : List Transaction),
      ∃ rs : List String, rs.length = trs.length ∧
        getTransactionStyleName (.aggregate sd ed trs) "" =
          "aggregate" ++ dashConcat rs ∧
        ∀ i (h : i < trs.length), ∃ a,
          rs.getD i "" = getTransactionStyleName (trs.get ⟨i, h⟩) a) ∧
    getTransactionStyleName
        (.aggregate 0 4 [.primary 0 2 "creation", .primary 2 4 "demolition"]) "" =
      "aggregate-creation-demolition" := by
  refine ⟨fun sd ed ty styleName => rfl, fun sd ed trs => ?_, rfl⟩
  obtain ⟨rs, hlen, heq, hidx⟩ := styleNameLoop_structure trs "aggregate"
  exact ⟨rs, hlen, by rw [getTransactionStyleName, if_pos rfl, heq], hidx⟩

/-- Witness for the C5 theorem: its aggregate part applied to the example
aggregate of two primaries. -/
theorem getTransactionStyleName_resolution_witness :
    ∃ rs : List String,
      rs.length = ([Transaction.primary 0 2 "creation",
        Transaction.primary 2 4 "demolition"] : List Transaction).length ∧
      getTransactionStyleName
          (.aggregate 0 4 [.primary 0 2 "creation", .primary 2 4 "demolition"]) "" =
        "aggregate" ++ dashConcat rs ∧
      ∀ i (h : i < ([Transaction.primary 0 2 "creation",
          Transaction.primary 2 4 "demolition"] : List Transaction).length), ∃ a,
        rs.getD i "" = getTransactionStyleName
          (([Transaction.primary 0 2 "creation",
            Transaction.primary 2 4 "demolition"] : List Transaction).get ⟨i, h⟩) a :=
  getTransactionStyleName_resolution.2.1 0 4
    [.primary 0 2 "creation", .primary 2 4 "demolition"]

/-- C10: on a depth-one aggregate whose nested transactions are all
primary, resolution from the empty accumulator is exactly the string
`aggregate-t1-...-tn` built from the nested types in order, with no
duplication. -/
theorem getTransactionStyleName_flat_aggregate (sd ed : Rat)
    (trs : List Transaction) (ts : List String)
    (h : trs.map Transaction.primaryType = ts.map some) :
    getTransactionStyleName (.aggregate sd ed trs) "" =
      "aggregate" ++ dashConcat ts := by
  rw [getTransactionStyleName, if_pos rfl, styleNameLoop_primary trs ts "aggregate" h]

/-- Witness for the C10 theorem on a two-primary aggregate. -/
theorem getTransactionStyleName_flat_aggregate_witness :
    getTransactionStyleName
        (.aggregate 0 1 [.primary 0 1 "creation", .primary 0 1 "modification"]) "" =
      "aggregate" ++ dashConcat ["creation", "modification"] :=
  getTransactionStyleName_flat_aggregate 0 1
    [.primary 0 1 "creation", .primary 0 1 "modification"]
    ["creation", "modification"] rfl

/-- C6: for the root tile identifier `0`, `computeFeaturesStates` returns
the empty state sequence at once, for every model, current time and cache,
leaves the cache untouched and emits no diagnostic. -/
theorem computeFeaturesStates_root_tile (model : Nat → Option BatchTable)
    (currentTime : Rat) (cache : DisplayStateCache) :
    computeFeaturesStates model currentTime cache 0 = ⟨[], cache, false⟩ :=
  rfl

/-- C7: a second call to `computeFeaturesStates` with the same current time
and tile identifier returns the same states by value and leaves the cache
of the first call unchanged; moreover, when the first call left a cache
entry holding its own states, the second call is a pure cache hit. -/
theorem computeFeaturesStates_idempotent (model : Nat → Option BatchTable)
    (currentTime : Rat) (cache : DisplayStateCache) (tileId : Nat) :
    (computeFeaturesStates model currentTime
        (computeFeaturesStates model currentTime cache tileId).cache tileId).states =
      (computeFeaturesStates model currentTime cache tileId).states ∧
    (computeFeaturesStates model currentTime
        (computeFeaturesStates model currentTime cache tileId).cache tileId).cache =
      (computeFeaturesStates model currentTime cache tileId).cache ∧
    (cacheLookup (computeFeaturesStates model currentTime cache tileId).cache
        currentTime tileId =
        some (computeFeaturesStates model currentTime cache tileId).states →
      computeFeaturesStates model currentTime
          (computeFeaturesStates model currentTime cache tileId).cache tileId =
        ⟨(computeFeaturesStates model currentTime cache tileId).states,
          (computeFeaturesStates model currentTime cache tileId).cache, false⟩) := by
  by_cases h0 : tileId = 0
  · subst h0
    refine ⟨rfl, rfl, fun hc => ?_⟩
    have hst : (computeFeaturesStates model currentTime cache 0).states = [] := rfl
    have hca : (computeFeaturesStates model currentTime cache 0).cache = cache := rfl
    simp [computeFeaturesStates, hst, hca]
  · cases hc : cacheLookup cache currentTime tileId with
    | some states =>
        simp [computeFeaturesStates, h0, hc]
    | none =>
        cases hm : model tileId with
        | some BT =>
            simp [computeFeaturesStates, h0, hc, hm, cacheLookup_cacheInsert]
        | none =>
            simp [computeFeaturesStates, h0, hc, hm]

/-- Witness for the C7 theorem at the example model, an empty starting
cache and tile `1`, whose first call stores a cache entry. -/
theorem computeFeaturesStates_idempotent_witness :
    computeFeaturesStates exModel 5
        (computeFeaturesStates exModel 5 [] 1).cache 1 =
      ⟨(computeFeaturesStates exModel 5 [] 1).states,
        (computeFeaturesStates exModel 5 [] 1).cache, false⟩ :=
  (computeFeaturesStates_idempotent exModel 5 [] 1).2.2
    (by with_unfolding_all decide)

/-- C8: for a non-root tile with no cached entry and no batch table in the
temporal extension model, `computeFeaturesStates` emits the diagnostic,
returns the empty state sequence and leaves the cache unchanged (so no
culling result is produced or stored). -/
theorem computeFeaturesStates_missing_batchTable (model : Nat → Option BatchTable)
    (currentTime : Rat) (cache : DisplayStateCache) (tileId : Nat)
    (h0 : tileId ≠ 0) (hc : cacheLookup cache currentTime tileId = none)
    (hm : model tileId = none) :
    computeFeaturesStates model currentTime cache tileId = ⟨[], cache, true⟩ := by
  simp [computeFeaturesStates, h0, hc, hm]

/-- Witness for the C8 theorem: tile `2` has no batch table in the example
model and the empty cache has no entry. -/
theorem computeFeaturesStates_missing_batchTable_witness :
    computeFeaturesStates exModel 5 [] 2 = ⟨[], [], true⟩ :=
  computeFeaturesStates_missing_batchTable exModel 5 [] 2
    (by decide) rfl rfl

lemma flatten_map_singleton {α β : Type} (g : β → α) :
    ∀ l : List β, (l.map (fun i => [g i])).flatten = l.map g := by
  intro l
  induction l with
  | nil => rfl
  | cons b l ih => simp [ih]

/-- C9: `computeTileState` resolves the per-feature labels through
`computeFeaturesStates` and, for each feature index, requests styling with
that label when it is registered and with the fallback `noTransaction`
(not `hide`) otherwise. -/
theorem computeTileState_fallback (isStyleRegistered : String → Bool)
    (model : Nat → Option BatchTable) (currentTime : Rat)
    (cache : DisplayStateCache) (tileId : Nat) :
    (computeTileState isStyleRegistered model currentTime cache tileId).1 =
      (List.range
          (computeFeaturesStates model currentTime cache tileId).states.length).map
        (fun i =>
          (tileId, i,
            if isStyleRegistered
                ((computeFeaturesStates model currentTime cache tileId).states.getD i "")
            then (computeFeaturesStates model currentTime cache tileId).states.getD i ""
            else "noTransaction")) := by
  unfold computeTileState
  dsimp only
  have hfun :
      (fun (acc : List (Nat × Nat × String)) (i : Nat) =>
        if isStyleRegistered
            ((computeFeaturesStates model currentTime cache tileId).states.getD i "")
        then
          acc ++ [(tileId, i,
            (computeFeaturesStates model currentTime cache tileId).states.getD i "")]
        else
          acc ++ [(tileId, i, "noTransaction")]) =
      (fun (acc : List (Nat × Nat × String)) (i : Nat) =>
        acc ++
          [(tileId, i,
            if isStyleRegistered
                ((computeFeaturesStates model currentTime cache tileId).states.getD i "")
            then (computeFeaturesStates model currentTime cache tileId).states.getD i ""
            else "noTransaction")]) := by
    funext acc i
    cases hreg : isStyleRegistered
        ((computeFeaturesStates model currentTime cache tileId).states.getD i "") with
    | true =>
        simp only [List.getD_eq_getElem?_getD] at hreg ⊢
        simp [hreg]
    | false =>
        simp only [List.getD_eq_getElem?_getD] at hreg ⊢
        simp [hreg]
  rw [hfun]
  have hfold := foldl_append_eq_flatten
    (fun (i : Nat) =>
      [(tileId, i,
        if isStyleRegistered
            ((computeFeaturesStates model currentTime cache tileId).states.getD i "")
        then (computeFeaturesStates model currentTime cache tileId).states.getD i ""
        else "noTransaction")])
    (List.range (computeFeaturesStates model currentTime cache tileId).states.length)
    []
  rw [hfold, List.nil_append, flatten_map_singleton]
